import Mathlib

/-!
# Verification of codeGROOVE-dev/slacker core logic

A shallow embedding in Lean 4 of the core algorithms of the slacker bot:

* the PR state-resolution logic of `Client.GetPRState` (cmd/server/main.go),
* the notification gating of `Manager.NotifyUser` (pkg/notify/notify.go),
* the tenant state store of `pkg/state/state.go` (preferences, PR records,
  reverse index, lazy loading, persistence with temp-file-then-rename),
* the event envelope validation of `Coordinator.processEvent`
  (pkg/notify/notify.go, bot package).

Go machine state is made explicit: the in-memory workspace map and the
on-disk snapshot directory are fields of a `Store` record; clock readings
and remote-call outcomes (user presence, message-send success) are passed
as arguments. Durations and timestamps are `Int` nanoseconds, matching
the Go `time.Duration`/`time.Time` arithmetic as used by the code.
-/

namespace Slacker

/-! ## StateResolver: the derivation logic of `Client.GetPRState`

`GetPRState` fetches the PR, its check runs and its reviews, then derives a
state label and blocked-on list purely from those signals.  The embedding
captures the fetched signals in `PRSignals` and the derivation as
`getPRState`.  `checks` is an `Option` because `GetPRChecks` degrades to
`nil` when the remote call fails after retries. -/

/-- One check run as consumed by `GetPRState`: its `status` and `conclusion`
strings (go-github `CheckRun.GetStatus` / `GetConclusion`). -/
structure CheckRun where
  status : String
  conclusion : String
deriving DecidableEq, Repr

/-- One review submission as consumed by `GetPRState`: the reviewer (absent
when `GetUser()` is nil) and the review state string. -/
structure Review where
  user : Option String
  state : String
deriving DecidableEq, Repr

/-- The raw signals `GetPRState` derives from: merge/close status and author
from the PR object, the (possibly absent) check-run list, the review list,
and the requested individual reviewers and teams in source order. -/
structure PRSignals where
  merged : Bool
  state : String
  author : String
  requestedReviewers : List String
  requestedTeams : List String
  checks : Option (List CheckRun)
  reviews : List Review
deriving DecidableEq, Repr

/-- The `checksRunning` flag: some check run has status `in_progress`, `queued`
or `pending` (main.go lines 448-450); false when the check fetch degraded
to nil. -/
def checksRunning (s : PRSignals) : Bool :=
  match s.checks with
  | none => false
  | some cs => cs.any fun c =>
      c.status == "in_progress" || c.status == "queued" || c.status == "pending"

/-- The `checksFailed` flag: some completed check run concluded with neither
`success` nor `skipped` (main.go lines 451-455). -/
def checksFailed (s : PRSignals) : Bool :=
  match s.checks with
  | none => false
  | some cs => cs.any fun c =>
      c.status == "completed" && !(c.conclusion == "success") && !(c.conclusion == "skipped")

/-- The `needsChanges` flag: some review has state `CHANGES_REQUESTED`
(main.go lines 477-478). -/
def needsChanges (s : PRSignals) : Bool :=
  s.reviews.any fun r => r.state == "CHANGES_REQUESTED"

/-- The `hasApproval` flag: some review has state `APPROVED`
(main.go lines 475-476). -/
def hasApproval (s : PRSignals) : Bool :=
  s.reviews.any fun r => r.state == "APPROVED"

/-- The derivation logic of `Client.GetPRState` (main.go lines 429-508):
the merged/closed checks followed by the flag-driven if/else chain, producing
the state label and the blocked-on list. -/
def getPRState (s : PRSignals) : String × List String :=
  if s.merged then ("pray", [])
  else if s.state == "closed" then ("face_palm", [])
  else if checksRunning s then ("test_tube", [])
  else if checksFailed s then ("broken_heart", [s.author])
  else if needsChanges s then ("carpentry_saw", [s.author])
  else if hasApproval s then ("check", [s.author])
  else ("hourglass",
    s.requestedReviewers ++ s.requestedTeams.map (fun t => "team:" ++ t))

/-- The guard of precedence rule `k` (0 = merged, 1 = closed-unmerged,
2 = checks running, 3 = checks failed, 4 = changes requested, 5 = approved,
6 = otherwise/awaiting).  Indices above 6 never guard. -/
def ruleGuard (k : Nat) (s : PRSignals) : Bool :=
  match k with
  | 0 => s.merged
  | 1 => s.state == "closed"
  | 2 => checksRunning s
  | 3 => checksFailed s
  | 4 => needsChanges s
  | 5 => hasApproval s
  | 6 => true
  | _ => false

/-- The (label, attribution) pair that precedence rule `k` produces. -/
def ruleOutput (k : Nat) (s : PRSignals) : String × List String :=
  match k with
  | 0 => ("pray", [])
  | 1 => ("face_palm", [])
  | 2 => ("test_tube", [])
  | 3 => ("broken_heart", [s.author])
  | 4 => ("carpentry_saw", [s.author])
  | 5 => ("check", [s.author])
  | _ => ("hourglass",
      s.requestedReviewers ++ s.requestedTeams.map (fun t => "team:" ++ t))

/-- No rule strictly before `k` has a true guard. -/
def noEarlierRule : Nat → PRSignals → Bool
  | 0, _ => true
  | k + 1, s => noEarlierRule k s && !ruleGuard k s

/-- Rule `k` fires when its guard holds and no earlier guard does
(first match wins). -/
def ruleFires (k : Nat) (s : PRSignals) : Bool :=
  ruleGuard k s && noEarlierRule k s

/-- The index of the first rule whose guard holds: follows the if/else chain
of `GetPRState`. -/
def firedRule (s : PRSignals) : Nat :=
  if s.merged then 0
  else if s.state == "closed" then 1
  else if checksRunning s then 2
  else if checksFailed s then 3
  else if needsChanges s then 4
  else if hasApproval s then 5
  else 6

/-! ## StateStore: pkg/state/state.go

Go maps are modelled as association lists observed only through lookup;
`lookupA` is Go map indexing (comma-ok form), `insertA` is map assignment.
A `Store` holds the in-memory workspace map of the manager (`Manager.data`) and
the decoded contents of its data directory (`disk`), the latter standing
for the snapshot files read by `loadWorkspaceDataLocked` and written by
`saveWorkspaceData`. -/

/-- Embedding of `UserPreferences` (state.go lines 14-21).  Durations and times are
`Int` nanoseconds. -/
structure UserPreferences where
  realTimeNotifications : Bool
  channelNotifyDelay : Int
  dailyReminders : Bool
  timezone : String
  lastNotified : Int
deriving DecidableEq, Repr

/-- Embedding of `PRState` (state.go lines 23-37). -/
structure PRState where
  owner : String
  repo : String
  number : Int
  title : String
  author : String
  state : String
  blockedOn : List String
  reviewers : List String
  threadTS : String
  channelID : String
  lastUpdated : Int
  lastNotified : Int
deriving DecidableEq, Repr

/-- Embedding of `WorkspaceData` (state.go lines 39-46): per-tenant preference map,
PR map keyed by `owner/repo#number`, and the reverse index `UserPRs`. -/
structure WorkspaceData where
  workspaceID : String
  users : List (String × UserPreferences)
  prs : List (String × PRState)
  userPRs : List (String × List String)
  lastUpdated : Int
deriving DecidableEq, Repr

/-- Go map lookup (comma-ok form) on an association list. -/
def lookupA {α : Type} : List (String × α) → String → Option α
  | [], _ => none
  | (k, v) :: rest, key => if k == key then some v else lookupA rest key

/-- Go map assignment on an association list: replace the binding if the
key is present, append it otherwise. -/
def insertA {α : Type} : List (String × α) → String → α → List (String × α)
  | [], key, v => [(key, v)]
  | (k, w) :: rest, key, v =>
      if k == key then (k, v) :: rest else (k, w) :: insertA rest key v

/-- Go map entry deletion (or file removal) on an association list. -/
def eraseA {α : Type} : List (String × α) → String → List (String × α)
  | [], _ => []
  | (k, v) :: rest, key =>
      if k == key then eraseA rest key else (k, v) :: eraseA rest key

/-- The mutable state of the state manager: the in-memory tenant map
`Manager.data` and the decoded durable snapshots in its data directory. -/
structure Store where
  mem : List (String × WorkspaceData)
  disk : List (String × WorkspaceData)
deriving DecidableEq, Repr

/-- The default preferences returned by `GetUserPreferences` when the
workspace or user record is absent (state.go lines 89-94 and 99-104):
real-time on, 30-minute delay, daily reminders on. -/
def defaultPrefs : UserPreferences :=
  { realTimeNotifications := true
    channelNotifyDelay := 30 * 60 * 1000000000
    dailyReminders := true
    timezone := ""
    lastNotified := 0 }

/-- The Go zero value of `UserPreferences`, produced by indexing a map at
a missing key (state.go line 212). -/
def zeroPrefs : UserPreferences :=
  { realTimeNotifications := false
    channelNotifyDelay := 0
    dailyReminders := false
    timezone := ""
    lastNotified := 0 }

/-- The composite PR key `owner/repo#number` (state.go lines 140, 155). -/
def prKey (owner repo : String) (number : Int) : String :=
  owner ++ "/" ++ repo ++ "#" ++ toString number

/-- Embedding of `Manager.loadWorkspaceData` (state.go lines 247-255): read the tenant
snapshot from the data directory into memory when present; a missing or
undecodable file leaves memory untouched. -/
def loadWorkspaceData (st : Store) (workspaceID : String) : Store :=
  match lookupA st.disk workspaceID with
  | some d => { st with mem := insertA st.mem workspaceID d }
  | none => st

/-- Embedding of `Manager.GetUserPreferences` (state.go lines 75-108): lazily load the
workspace from disk when absent from memory, then answer from the loaded
map, falling back to `defaultPrefs` when the workspace or the user record
is missing.  Returns the (possibly cache-filled) store alongside. -/
def getUserPreferences (st : Store) (workspaceID userID : String) :
    UserPreferences × Store :=
  let st := if (lookupA st.mem workspaceID).isSome then st
            else loadWorkspaceData st workspaceID
  match lookupA st.mem workspaceID with
  | none => (defaultPrefs, st)
  | some w =>
      match lookupA w.users userID with
      | none => (defaultPrefs, st)
      | some p => (p, st)

/-- Embedding of `Manager.GetPRState` (state.go lines 130-143): answer from the
in-memory map only; an absent workspace yields `(nil, false)`. -/
def getPRStateStore (st : Store) (workspaceID owner repo : String)
    (number : Int) : Option PRState :=
  match lookupA st.mem workspaceID with
  | none => none
  | some w => lookupA w.prs (prKey owner repo number)

/-- Embedding of `Manager.GetUserPRs` (state.go lines 178-200): answer from the
in-memory map only, resolving the reverse-index keys against the PR map. -/
def getUserPRs (st : Store) (workspaceID userID : String) : List PRState :=
  match lookupA st.mem workspaceID with
  | none => []
  | some w =>
      match lookupA w.userPRs userID with
      | none => []
      | some keys => keys.filterMap fun k => lookupA w.prs k

/-- Embedding of `Manager.ensureWorkspace` (state.go lines 223-245): return the resident
workspace, else load it from disk, else create a fresh empty record
stamped with the current time.  Returns the workspace and the store with
it resident. -/
def ensureWorkspace (st : Store) (workspaceID : String) (now : Int) :
    WorkspaceData × Store :=
  match lookupA st.mem workspaceID with
  | some w => (w, st)
  | none =>
      match lookupA st.disk workspaceID with
      | some d => (d, { st with mem := insertA st.mem workspaceID d })
      | none =>
          let w : WorkspaceData :=
            { workspaceID := workspaceID
              users := []
              prs := []
              userPRs := []
              lastUpdated := now }
          (w, { st with mem := insertA st.mem workspaceID w })

/-- Embedding of `Manager.UpdateLastNotified` (state.go lines 202-221): take the user
record (the zero value when absent), stamp `LastNotified` with the current
time, and store it back. -/
def updateLastNotified (st : Store) (workspaceID userID : String) (now : Int) :
    Store :=
  let (w, st) := ensureWorkspace st workspaceID now
  let prefs := (lookupA w.users userID).getD zeroPrefs
  let prefs := { prefs with lastNotified := now }
  let w := { w with users := insertA w.users userID prefs }
  { st with mem := insertA st.mem workspaceID w }

/-- List membership helper `contains` (state.go lines 397-404). -/
def containsStr (slice : List String) (item : String) : Bool :=
  slice.any fun s => s == item

/-- Embedding of `Manager.SetPRState` (state.go lines 145-176): store the PR under its
composite key, stamp the workspace, and append the key to each blocked
reverse-index entry of that user unless already present. -/
def setPRState (st : Store) (workspaceID : String) (pr : PRState) (now : Int) :
    Store :=
  let (w, st) := ensureWorkspace st workspaceID now
  let key := prKey pr.owner pr.repo pr.number
  let w := { w with prs := insertA w.prs key pr, lastUpdated := now }
  let w := pr.blockedOn.foldl
    (fun w userID =>
      let cur := (lookupA w.userPRs userID).getD []
      if containsStr cur key then w
      else { w with userPRs := insertA w.userPRs userID (cur ++ [key]) })
    w
  { st with mem := insertA st.mem workspaceID w }

/-! ## NotificationScheduler: `Manager.NotifyUser` (pkg/notify/notify.go)

The two remote observations made on the success path — the Slack
presence of the user (`slack.IsUserActive`) and the outcome of the direct-message send
(`slack.SendDirectMessage`) — are passed in as the arguments `active` and
`sendOk`.  The clock reading `now` stands for `time.Now()`, so the Go
`time.Since(t) = now - t`. -/

/-- Embedding of `Manager.formatNotificationMessage` (notify.go lines 92-117): map the
state label to an action phrase and format the DM text. -/
def formatNotificationMessage (pr : PRState) : String :=
  let action :=
    if pr.state == "broken_heart" then "waiting for you to fix tests"
    else if pr.state == "hourglass" then "waiting for your review"
    else if pr.state == "carpentry_saw" then "waiting for you to address review feedback"
    else if pr.state == "check" then "approved and ready to merge"
    else "needs your attention"
  ":postal_horn: " ++ pr.title ++ " â€¢ " ++ pr.owner ++ "/" ++ pr.repo ++ "#"
    ++ toString pr.number ++ " by @" ++ pr.author ++ " - " ++ action

/-- The outcome of one `NotifyUser` call: which gate suppressed it, or the
attempted message and whether the send succeeded. -/
inductive NotifyResult where
  | suppressedPrefs
  | suppressedDelay
  | suppressedPresence
  | sendFailed (message : String)
  | sent (message : String)
deriving DecidableEq, Repr

/-- Embedding of `Manager.NotifyUser` (notify.go lines 55-90): fetch preferences, then
gate on the real-time flag, the delay window since last notification, and
live presence; only past all three gates is the message composed and the
send attempted, and only a successful send updates last-notified. -/
def notifyUser (st : Store) (workspaceID userID : String) (pr : PRState)
    (now : Int) (active sendOk : Bool) : NotifyResult × Store :=
  let (prefs, st) := getUserPreferences st workspaceID userID
  if !prefs.realTimeNotifications then (.suppressedPrefs, st)
  else if now - prefs.lastNotified < prefs.channelNotifyDelay then
    (.suppressedDelay, st)
  else if !active then (.suppressedPresence, st)
  else
    let message := formatNotificationMessage pr
    if !sendOk then (.sendFailed message, st)
    else (.sent message, updateLastNotified st workspaceID userID now)

/-! ## EventIngestor envelope validation: `Coordinator.processEvent`

`processEvent` (bot package, in the pkg/notify/notify.go file group, lines
371-414) validates the repository identifier of the envelope before any
dispatch.  The handler invocations are reified as a list of `HandlerCall`
values so that "no handler was dispatched" is a statement about the
result; the config-load side call is not a handler and is omitted. -/

/-- The event envelope read from the sprinkler feed (`SprinklerMessage`).
The payload stays opaque. -/
structure SprinklerMessage where
  event : String
  repo : String
  payload : String
deriving DecidableEq, Repr

/-- One dispatched handler invocation. -/
inductive HandlerCall where
  | pullRequest (owner repo payload : String)
  | pullRequestReview (owner repo payload : String)
  | check (owner repo payload : String)
  | configUpdate (owner : String)
deriving DecidableEq, Repr

/-- the Go `strings.Split` on a one-character separator, over the character
list: every separator occurrence starts a new segment, and the empty
string yields one empty segment. -/
def splitChar (sep : Char) : List Char → List (List Char)
  | [] => [[]]
  | c :: rest =>
      let r := splitChar sep rest
      if c == sep then [] :: r
      else
        match r with
        | [] => [[c]]
        | g :: gs => (c :: g) :: gs

/-- Embedding of `strings.Split(s, "/")` as used by `processEvent`. -/
def splitSlash (s : String) : List String :=
  (splitChar '/' s.data).map fun cs => String.mk cs

/-- Embedding of `Coordinator.processEvent`: split the repo identifier on `/`, reject
unless exactly two non-empty segments, then dispatch on the event type.
Returns the handler calls made, or the error. -/
def processEvent (msg : SprinklerMessage) : Except String (List HandlerCall) :=
  let parts := splitSlash msg.repo
  if parts.length != 2 then
    .error ("invalid repo format: " ++ msg.repo)
  else
    let owner := parts.headD ""
    let repo := (parts.drop 1).headD ""
    if owner == "" || repo == "" then
      .error "empty owner or repo name"
    else if msg.event == "pull_request" then
      .ok [.pullRequest owner repo msg.payload]
    else if msg.event == "pull_request_review" then
      .ok [.pullRequestReview owner repo msg.payload]
    else if msg.event == "check_run" || msg.event == "check_suite" then
      .ok [.check owner repo msg.payload]
    else if msg.event == "push" then
      .ok (if repo == ".github" then [.configUpdate owner] else [])
    else
      .ok []

/-! ## Persistence: `saveWorkspaceData` / `loadWorkspaceDataLocked`

The snapshot file format (gzipped JSON of `WorkspaceData`) is modelled as
a flat token stream: the JSON encoder becomes `encodeWorkspace`, the
decoder `decodeWorkspace`.  Field order and length-prefixed lists mirror
the struct layout, so the encoding is injective by construction and the
round trip is provable.  The data directory is an association list from
file name to token content (`FSys`). -/

/-- One token of the serialized record stream: a string, integer or
boolean scalar, or a length prefix. -/
inductive Tok where
  | s (v : String)
  | i (v : Int)
  | b (v : Bool)
  | n (v : Nat)
deriving DecidableEq, Repr

/-- Serialize a `UserPreferences` record field by field. -/
def encodePrefs (p : UserPreferences) : List Tok :=
  [.b p.realTimeNotifications, .i p.channelNotifyDelay, .b p.dailyReminders,
   .s p.timezone, .i p.lastNotified]

/-- Decode a `UserPreferences` record, returning the remaining stream. -/
def decodePrefs : List Tok → Option (UserPreferences × List Tok)
  | .b rt :: .i d :: .b dr :: .s tz :: .i ln :: rest =>
      some ({ realTimeNotifications := rt, channelNotifyDelay := d,
              dailyReminders := dr, timezone := tz, lastNotified := ln }, rest)
  | _ => none

/-- Serialize a `PRState` record field by field; the two string lists are
length-prefixed. -/
def encodePR (pr : PRState) : List Tok :=
  [.s pr.owner, .s pr.repo, .i pr.number, .s pr.title, .s pr.author,
   .s pr.state, .n pr.blockedOn.length] ++ pr.blockedOn.map .s
  ++ [.n pr.reviewers.length] ++ pr.reviewers.map .s
  ++ [.s pr.threadTS, .s pr.channelID, .i pr.lastUpdated, .i pr.lastNotified]

/-- Decode `count` strings from the stream. -/
def decodeStrs : Nat → List Tok → Option (List String × List Tok)
  | 0, rest => some ([], rest)
  | k + 1, .s v :: rest =>
      match decodeStrs k rest with
      | some (vs, rest) => some (v :: vs, rest)
      | none => none
  | _ + 1, _ => none

/-- Decode a `PRState` record, returning the remaining stream. -/
def decodePR : List Tok → Option (PRState × List Tok)
  | .s ow :: .s rp :: .i num :: .s ti :: .s au :: .s stt :: .n nb :: rest =>
      match decodeStrs nb rest with
      | some (blocked, rest) =>
          match rest with
          | .n nr :: rest =>
              match decodeStrs nr rest with
              | some (revs, rest) =>
                  match rest with
                  | .s ts :: .s ch :: .i lu :: .i ln :: rest =>
                      some ({ owner := ow, repo := rp, number := num,
                              title := ti, author := au, state := stt,
                              blockedOn := blocked, reviewers := revs,
                              threadTS := ts, channelID := ch,
                              lastUpdated := lu, lastNotified := ln }, rest)
                  | _ => none
              | none => none
          | _ => none
      | none => none
  | _ => none

/-- Serialize a keyed list: a length prefix, then key/value pairs back to
back with the given value encoder. -/
def encodeKeyed {α : Type} (enc : α → List Tok) (l : List (String × α)) :
    List Tok :=
  .n l.length :: l.flatMap fun (k, v) => .s k :: enc v

/-- Decode `count` key/value pairs with the given value decoder. -/
def decodeKeyedAux {α : Type} (dec : List Tok → Option (α × List Tok)) :
    Nat → List Tok → Option (List (String × α) × List Tok)
  | 0, rest => some ([], rest)
  | k + 1, .s key :: rest =>
      match dec rest with
      | some (v, rest) =>
          match decodeKeyedAux dec k rest with
          | some (l, rest) => some ((key, v) :: l, rest)
          | none => none
      | none => none
  | _ + 1, _ => none

/-- Decode a keyed list: read the length prefix, then that many pairs. -/
def decodeKeyed {α : Type} (dec : List Tok → Option (α × List Tok)) :
    List Tok → Option (List (String × α) × List Tok)
  | .n count :: rest => decodeKeyedAux dec count rest
  | _ => none

/-- Serialize a whole `WorkspaceData` record: the workspace id, the three
maps, and the last-updated stamp — the content of the snapshot file. -/
def encodeWorkspace (d : WorkspaceData) : List Tok :=
  .s d.workspaceID :: encodeKeyed encodePrefs d.users
  ++ encodeKeyed encodePR d.prs
  ++ encodeKeyed (fun l => .n l.length :: l.map .s) d.userPRs
  ++ [.i d.lastUpdated]

/-- Decode the reverse-index value: a length-prefixed string list. -/
def decodeStrList : List Tok → Option (List String × List Tok)
  | .n count :: rest => decodeStrs count rest
  | _ => none

/-- Decode a whole `WorkspaceData` record; the stream must be consumed in
full (the snapshot file holds exactly one record). -/
def decodeWorkspace (toks : List Tok) : Option WorkspaceData :=
  match toks with
  | .s wid :: rest =>
      match decodeKeyed decodePrefs rest with
      | some (users, rest) =>
          match decodeKeyed decodePR rest with
          | some (prs, rest) =>
              match decodeKeyed decodeStrList rest with
              | some (userPRs, rest) =>
                  match rest with
                  | [.i lu] =>
                      some { workspaceID := wid, users := users, prs := prs,
                             userPRs := userPRs, lastUpdated := lu }
                  | _ => none
              | none => none
          | none => none
      | none => none
  | _ => none

/-- The data directory: file name to token content. -/
def FSys : Type := List (String × List Tok)

/-- Which stages of `saveWorkspaceData` fail in a given run: temp-file
creation (`os.Create`), JSON encoding, the gzip-writer close, the file
close, and the rename. -/
structure SaveFaults where
  createFails : Bool
  encodeFails : Bool
  gzCloseFails : Bool
  fileCloseFails : Bool
  renameFails : Bool
deriving DecidableEq, Repr

/-- A fault-free run. -/
def noFaults : SaveFaults :=
  { createFails := false, encodeFails := false, gzCloseFails := false,
    fileCloseFails := false, renameFails := false }

/-- Snapshot file name for a workspace (state.go line 340 / 259):
`<workspaceID>.json.gz` inside the data directory. -/
def snapshotName (workspaceID : String) : String :=
  workspaceID ++ ".json.gz"

/-- Embedding of `Manager.saveWorkspaceData` (state.go lines 330-395) over the explicit
file system: create the temp sibling, write the encoded record, close, and
atomically rename over the final name; every failure path removes the temp
file and leaves the final file untouched.  Returns the file system and
whether the save completed. -/
def saveWorkspaceDataFS (f : SaveFaults) (d : WorkspaceData)
    (filename : String) (fs : FSys) : FSys × Bool :=
  let tempFile := filename ++ ".tmp"
  if f.createFails then (fs, false)
  else
    let fs := insertA fs tempFile []
    if f.encodeFails then (eraseA fs tempFile, false)
    else
      let fs := insertA fs tempFile (encodeWorkspace d)
      if f.gzCloseFails then (eraseA fs tempFile, false)
      else if f.fileCloseFails then (eraseA fs tempFile, false)
      else if f.renameFails then (eraseA fs tempFile, false)
      else (insertA (eraseA fs tempFile) filename (encodeWorkspace d), true)

/-- Embedding of `Manager.loadWorkspaceDataLocked` (state.go lines 257-293) over the
explicit file system: open the snapshot file and decode it; a missing file
or a decode failure yields nothing. -/
def loadWorkspaceDataFS (filename : String) (fs : FSys) :
    Option WorkspaceData :=
  match lookupA fs filename with
  | none => none
  | some toks => decodeWorkspace toks

/-! ## Concrete signal sets used by witnesses and counterexamples -/

/-- Signals of a merged PR. -/
def exMerged : PRSignals :=
  { merged := true, state := "open", author := "alice",
    requestedReviewers := [], requestedTeams := [],
    checks := none, reviews := [] }

/-- Signals of a closed-but-unmerged PR. -/
def exClosed : PRSignals :=
  { merged := false, state := "closed", author := "alice",
    requestedReviewers := ["bob"], requestedTeams := [],
    checks := none, reviews := [] }

/-- Signals of an open PR with two requested reviewers and one requested
team, an empty check list, and no reviews. -/
def exAwaiting : PRSignals :=
  { merged := false, state := "open", author := "alice",
    requestedReviewers := ["bob", "carol"], requestedTeams := ["core"],
    checks := some [], reviews := [] }

/-- A stored PR record used by store and notification examples. -/
def exPR : PRState :=
  { owner := "o", repo := "r", number := 1, title := "t", author := "alice",
    state := "hourglass", blockedOn := ["bob"], reviewers := [],
    threadTS := "", channelID := "", lastUpdated := 0, lastNotified := 0 }

/-! ## Theorems about the StateResolver -/

/-- Predicate `noEarlierRule` says exactly that every strictly earlier guard is
false. -/
theorem noEarlierRule_iff (s : PRSignals) (k : Nat) :
    noEarlierRule k s = true ↔ ∀ j, j < k → ruleGuard j s = false := by
  induction k with
  | zero => simp [noEarlierRule]
  | succ k ih =>
      simp only [noEarlierRule, Bool.and_eq_true, Bool.not_eq_true', ih]
      constructor
      · rintro ⟨h1, h2⟩ j hj
        rcases Nat.lt_succ_iff_lt_or_eq.mp hj with h | h
        · exact h1 j h
        · exact h ▸ h2
      · intro h
        exact ⟨fun j hj => h j (Nat.lt_succ_of_lt hj), h k (Nat.lt_succ_self k)⟩

/-- The first-matching rule fires: its guard holds and no earlier guard
does. -/
theorem ruleFires_firedRule (s : PRSignals) :
    ruleFires (firedRule s) s = true := by
  cases hm : s.merged <;> cases hcl : s.state == "closed" <;>
    cases hr : checksRunning s <;> cases hf : checksFailed s <;>
      cases hnc : needsChanges s <;> cases hap : hasApproval s <;>
        simp [ruleFires, ruleGuard, noEarlierRule, firedRule,
          hm, hcl, hr, hf, hnc, hap]

/-- Any firing rule is the first-matching rule. -/
theorem ruleFires_unique (s : PRSignals) (k : Nat)
    (hk : ruleFires k s = true) : k = firedRule s := by
  have hfired := ruleFires_firedRule s
  simp only [ruleFires, Bool.and_eq_true, noEarlierRule_iff] at hk hfired
  rcases Nat.lt_trichotomy k (firedRule s) with h | h | h
  · exact absurd hk.1 (by simp [hfired.2 k h])
  · exact h
  · exact absurd hfired.1 (by simp [hk.2 (firedRule s) h])

/-- The resolver output is the firing rule output. -/
theorem getPRState_eq_ruleOutput (s : PRSignals) :
    getPRState s = ruleOutput (firedRule s) s := by
  cases hm : s.merged <;> cases hcl : s.state == "closed" <;>
    cases hr : checksRunning s <;> cases hf : checksFailed s <;>
      cases hnc : needsChanges s <;> cases hap : hasApproval s <;>
        simp [getPRState, firedRule, ruleOutput, hm, hcl, hr, hf, hnc, hap]

/-- C1: the state-resolution logic of `Client.GetPRState` is a pure
function of the signal set (hence deterministic), and on every input
exactly one precedence rule fires, in the order merged, closed-unmerged,
checks-running, checks-failed, changes-requested, approved,
awaiting-review: the resolver output equals the firing rule output,
the first-matching rule fires, and every firing rule is that
first-matching rule — so a later rule is unreachable once an earlier one
matches, and each rule determines exactly one (label, attribution)
pair via `ruleOutput`. -/
theorem getPRState_precedence (s : PRSignals) :
    getPRState s = ruleOutput (firedRule s) s
    ∧ ruleFires (firedRule s) s = true
    ∧ ∀ k : Nat, ruleFires k s = true → k = firedRule s :=
  ⟨getPRState_eq_ruleOutput s, ruleFires_firedRule s,
    fun k hk => ruleFires_unique s k hk⟩

/-- Witness for C1: on the merged example, rule 0 fires and is the unique
firing rule. -/
theorem getPRState_precedence_witness : 0 = firedRule exMerged :=
  (getPRState_precedence exMerged).2.2 0 (by decide)

/-- C2 as stated fails on the code: a closed-but-unmerged PR resolves to
`face_palm` — neither the merged label nor the awaiting label — yet its
attribution is empty, not the singleton author. -/
theorem getPRState_attribution_cex :
    (getPRState exClosed).1 = "face_palm"
    ∧ (getPRState exClosed).1 ≠ "pray"
    ∧ (getPRState exClosed).1 ≠ "hourglass"
    ∧ (getPRState exClosed).2 = []
    ∧ (getPRState exClosed).2 ≠ [exClosed.author] := by decide

/-- C2 (amended): the merged (`pray`), closed-unmerged (`face_palm`) and
checks-running (`test_tube`) labels all carry empty attribution, while the
checks-failed (`broken_heart`), changes-requested (`carpentry_saw`) and
approved (`check`) labels attribute exactly the author. -/
theorem getPRState_attribution (s : PRSignals) :
    (((getPRState s).1 = "pray" ∨ (getPRState s).1 = "face_palm"
        ∨ (getPRState s).1 = "test_tube") → (getPRState s).2 = [])
    ∧ (((getPRState s).1 = "broken_heart" ∨ (getPRState s).1 = "carpentry_saw"
        ∨ (getPRState s).1 = "check") → (getPRState s).2 = [s.author]) := by
  unfold getPRState
  split
  · simp
  · split
    · simp
    · split
      · simp
      · split
        · simp
        · split
          · simp
          · split
            · simp
            · simp

/-- Witness for C2 (amended): the attribution of the merged example is empty. -/
theorem getPRState_attribution_witness : (getPRState exMerged).2 = [] :=
  (getPRState_attribution exMerged).1 (Or.inl (by decide))

/-- C3: when no earlier precedence rule fires — not merged, not closed, no
running or failed checks, no changes-requested or approved review — the
label is `hourglass` and the attribution is the requested individual
reviewers in source order followed by the requested teams in source order,
each team entry prefixed `team:`. -/
theorem getPRState_awaiting (s : PRSignals)
    (hm : s.merged = false) (hcl : (s.state == "closed") = false)
    (hr : checksRunning s = false) (hf : checksFailed s = false)
    (hnc : needsChanges s = false) (hap : hasApproval s = false) :
    getPRState s =
      ("hourglass",
        s.requestedReviewers ++ s.requestedTeams.map (fun t => "team:" ++ t)) := by
  simp [getPRState, hm, hcl, hr, hf, hnc, hap]

/-- Witness for C3: the open example with reviewers bob and carol and team
core resolves to awaiting-review blocked on `[bob, carol, team:core]`. -/
theorem getPRState_awaiting_witness :
    getPRState exAwaiting = ("hourglass", ["bob", "carol", "team:core"]) :=
  (getPRState_awaiting exAwaiting (by decide) (by decide) (by decide)
    (by decide) (by decide) (by decide)).trans (by decide)

/-! ## Association-list lemmas (Go map semantics) -/

/-- Reading back the key just written. -/
theorem lookupA_insertA_self {α : Type} (l : List (String × α))
    (k : String) (v : α) : lookupA (insertA l k v) k = some v := by
  induction l with
  | nil => simp [insertA, lookupA]
  | cons kv rest ih =>
      obtain ⟨k1, w⟩ := kv
      by_cases h : (k1 == k) = true
      · simp [insertA, lookupA, h]
      · simp only [insertA, h, if_false, Bool.false_eq_true]
        simp [lookupA, h, ih]

/-- Writing one key leaves the binding of every other key unchanged. -/
theorem lookupA_insertA_ne {α : Type} (l : List (String × α))
    (k k' : String) (v : α) (h : (k' == k) = false) :
    lookupA (insertA l k v) k' = lookupA l k' := by
  induction l with
  | nil =>
      have hne : (k == k') = false := by
        simp only [beq_eq_false_iff_ne, ne_eq] at h ⊢
        exact fun hk => h hk.symm
      simp [insertA, lookupA, hne]
  | cons kv rest ih =>
      obtain ⟨k1, w⟩ := kv
      by_cases h1 : (k1 == k) = true
      · have h2 : (k1 == k') = false := by
          simp only [beq_iff_eq] at h1
          simp only [beq_eq_false_iff_ne, ne_eq] at h ⊢
          subst h1
          exact fun hk => h hk.symm
        simp [insertA, lookupA, h1, h2]
      · simp only [insertA, h1, if_false, Bool.false_eq_true]
        simp [lookupA, ih]

/-- A `getUserPreferences` call on a workspace already resident in memory
returns the store unchanged (the lazy-load branch is skipped). -/
theorem getUserPreferences_resident (st : Store) (wid uid : String)
    (h : (lookupA st.mem wid).isSome = true) :
    (getUserPreferences st wid uid).2 = st := by
  cases hw : lookupA st.mem wid with
  | none => simp [hw] at h
  | some w =>
      cases hu : lookupA w.users uid <;>
        simp [getUserPreferences, h, hw, hu]

/-- After `updateLastNotified`, the stored last-notified stamp of the user reads
back as the write time, whatever record (or none) was there before. -/
theorem lastNotified_after_update (st : Store) (wid uid : String)
    (now : Int) :
    (getUserPreferences (updateLastNotified st wid uid now) wid uid).1.lastNotified
      = now := by
  rcases hew : ensureWorkspace st wid now with ⟨w, st1⟩
  unfold updateLastNotified
  rw [hew]
  unfold getUserPreferences
  simp [lookupA_insertA_self]

/-! ## Theorems about the NotificationScheduler -/

/-- C4: the gating of `NotifyUser` — with the real-time preference off the
result is suppression regardless of anything else; with it on but the
elapsed time since last-notified strictly below the configured delay,
suppression; with both gates passed but presence not active, suppression;
and only with all three gates passed is the message composed from the
status label of the item and the delivery attempted (succeeding or failing with
that exact message). -/
theorem notifyUser_gating (st : Store) (wid uid : String) (pr : PRState)
    (now : Int) (active sendOk : Bool) :
    (((getUserPreferences st wid uid).1.realTimeNotifications = false) →
        (notifyUser st wid uid pr now active sendOk).1 = .suppressedPrefs)
    ∧ (((getUserPreferences st wid uid).1.realTimeNotifications = true) →
        now - (getUserPreferences st wid uid).1.lastNotified
            < (getUserPreferences st wid uid).1.channelNotifyDelay →
        (notifyUser st wid uid pr now active sendOk).1 = .suppressedDelay)
    ∧ (((getUserPreferences st wid uid).1.realTimeNotifications = true) →
        ¬(now - (getUserPreferences st wid uid).1.lastNotified
            < (getUserPreferences st wid uid).1.channelNotifyDelay) →
        active = false →
        (notifyUser st wid uid pr now active sendOk).1 = .suppressedPresence)
    ∧ (((getUserPreferences st wid uid).1.realTimeNotifications = true) →
        ¬(now - (getUserPreferences st wid uid).1.lastNotified
            < (getUserPreferences st wid uid).1.channelNotifyDelay) →
        active = true →
        (notifyUser st wid uid pr now active sendOk).1 =
          if sendOk then .sent (formatNotificationMessage pr)
          else .sendFailed (formatNotificationMessage pr)) := by
  rcases hgp : getUserPreferences st wid uid with ⟨prefs, st1⟩
  by_cases hrt : prefs.realTimeNotifications = true <;>
    by_cases hdelay : now - prefs.lastNotified < prefs.channelNotifyDelay <;>
      cases active <;> cases sendOk <;>
        simp [notifyUser, hgp, hrt, hdelay]

/-- Witness for C4: with the real-time preference at its default (enabled),
no prior notification, a 30-minute delay already elapsed, an active user
and a successful send, the call reports `sent`. -/
theorem notifyUser_gating_witness :
    (notifyUser ⟨[], []⟩ "w1" "u1" exPR 1800000000000 true true).1 =
      .sent (formatNotificationMessage exPR) :=
  ((notifyUser_gating ⟨[], []⟩ "w1" "u1" exPR 1800000000000 true true).2.2.2
    (by decide) (by decide) rfl).trans (by decide)

/-- C5: `NotifyUser` updates stored state iff the delivery succeeds —
on any suppression or send failure the store is returned unchanged, and on
a successful send it is exactly the store with last-notified stamped to
the send time (which then reads back as that time).  Stated for a
workspace resident in memory, where the preference read is pure. -/
theorem notifyUser_updates_iff_sent (st : Store) (wid uid : String)
    (pr : PRState) (now : Int) (active sendOk : Bool)
    (hres : (lookupA st.mem wid).isSome = true) :
    ((∀ m, (notifyUser st wid uid pr now active sendOk).1 ≠ NotifyResult.sent m) →
        (notifyUser st wid uid pr now active sendOk).2 = st)
    ∧ (∀ m, (notifyUser st wid uid pr now active sendOk).1 = NotifyResult.sent m →
        (notifyUser st wid uid pr now active sendOk).2 =
          updateLastNotified st wid uid now
        ∧ (getUserPreferences
            ((notifyUser st wid uid pr now active sendOk).2) wid uid).1.lastNotified
          = now) := by
  have hsnd := getUserPreferences_resident st wid uid hres
  rcases hgp : getUserPreferences st wid uid with ⟨prefs, st1⟩
  rw [hgp] at hsnd
  subst hsnd
  by_cases hrt : prefs.realTimeNotifications = true <;>
    by_cases hdelay : now - prefs.lastNotified < prefs.channelNotifyDelay <;>
      cases active <;> cases sendOk <;>
        simp [notifyUser, hgp, hrt, hdelay, lastNotified_after_update]

/-- A store whose tenant `w1` is resident in memory with no user records. -/
def exStoreResident : Store :=
  { mem := [("w1", ⟨"w1", [], [], [], 0⟩)], disk := [] }

/-- Witness for C5: on a resident empty workspace with presence away, the
suppressed call leaves the store untouched. -/
theorem notifyUser_updates_iff_sent_witness :
    (notifyUser exStoreResident "w1" "u1" exPR 1800000000000 false true).2 =
      exStoreResident :=
  (notifyUser_updates_iff_sent exStoreResident "w1" "u1" exPR 1800000000000
      false true (by decide)).1
    (by
      have hval :
          (notifyUser exStoreResident "w1" "u1" exPR 1800000000000 false true).1
            = NotifyResult.suppressedPresence := by decide
      intro m h
      rw [hval] at h
      simp at h)

/-! ## Theorems about the StateStore -/

/-- C10: when a user has no stored preferences record,
`UpdateLastNotified` stores a record built from the Go zero value — so a
subsequent `GetUserPreferences` returns real-time notifications disabled,
daily reminders disabled and a zero delay, with only the last-notified
stamp set, rather than the documented defaults (enabled, 30 minutes,
enabled). -/
theorem updateLastNotified_zero_prefs (st : Store) (wid uid : String)
    (now : Int)
    (h : lookupA (ensureWorkspace st wid now).1.users uid = none) :
    (getUserPreferences (updateLastNotified st wid uid now) wid uid).1 =
      { realTimeNotifications := false, channelNotifyDelay := 0,
        dailyReminders := false, timezone := "", lastNotified := now } := by
  rcases hew : ensureWorkspace st wid now with ⟨w, st1⟩
  rw [hew] at h
  unfold updateLastNotified
  rw [hew]
  unfold getUserPreferences
  simp [lookupA_insertA_self, h, zeroPrefs]

/-- Witness for C10: starting from an empty store, stamping user `u1`
yields the zero-value preferences with only the stamp set. -/
theorem updateLastNotified_zero_prefs_witness :
    (getUserPreferences (updateLastNotified ⟨[], []⟩ "w1" "u1" 5) "w1" "u1").1 =
      { realTimeNotifications := false, channelNotifyDelay := 0,
        dailyReminders := false, timezone := "", lastNotified := 5 } :=
  updateLastNotified_zero_prefs ⟨[], []⟩ "w1" "u1" 5 (by decide)

/-- A workspace present only in durable storage, with one PR, one user
record and a reverse-index entry. -/
def exDiskWorkspace : WorkspaceData :=
  { workspaceID := "w1",
    users := [("bob", zeroPrefs)],
    prs := [(prKey "o" "r" 1, exPR)],
    userPRs := [("bob", [prKey "o" "r" 1])],
    lastUpdated := 0 }

/-- A store whose memory is empty while durable storage holds tenant
`w1`. -/
def exStoreDiskOnly : Store :=
  { mem := [], disk := [("w1", exDiskWorkspace)] }

/-- C8 as stated fails on the code: with tenant `w1` absent from memory
but present in durable storage, `GetPRState` answers `none` and
`GetUserPRs` answers `[]` without attempting the durable load — the same
queries after an explicit load show the data was there. -/
theorem storeReads_lazyLoad_cex :
    (lookupA exStoreDiskOnly.disk "w1").isSome = true
    ∧ getPRStateStore exStoreDiskOnly "w1" "o" "r" 1 = none
    ∧ getUserPRs exStoreDiskOnly "w1" "bob" = []
    ∧ getPRStateStore (loadWorkspaceData exStoreDiskOnly "w1") "w1" "o" "r" 1
        = some exPR
    ∧ getUserPRs (loadWorkspaceData exStoreDiskOnly "w1") "w1" "bob"
        = [exPR] := by decide

/-- C8 (amended): of the three read operations, only `GetUserPreferences`
lazily loads an absent tenant from durable storage before answering;
`GetPRState` and `GetUserPRs` answer from the in-memory map only (empty
results when the tenant is not resident); and the fresh empty tenant
record is created by `ensureWorkspace` on the write path when neither
memory nor durable storage has the tenant, not by reads. -/
theorem storeReads_lazyLoad (st : Store) (wid uid owner repo : String)
    (number now : Int) (d : WorkspaceData)
    (habs : lookupA st.mem wid = none) :
    (lookupA st.disk wid = some d →
        (getUserPreferences st wid uid).1 =
          (lookupA d.users uid).getD defaultPrefs)
    ∧ getPRStateStore st wid owner repo number = none
    ∧ getUserPRs st wid uid = []
    ∧ (lookupA st.disk wid = none →
        ensureWorkspace st wid now =
          (⟨wid, [], [], [], now⟩,
            { st with mem := insertA st.mem wid ⟨wid, [], [], [], now⟩ })) := by
  refine ⟨?_, ?_, ?_, ?_⟩
  · intro hdisk
    unfold getUserPreferences loadWorkspaceData
    cases hu : lookupA d.users uid <;>
      simp [habs, hdisk, lookupA_insertA_self, hu]
  · unfold getPRStateStore
    simp [habs]
  · unfold getUserPRs
    simp [habs]
  · intro hdisk
    unfold ensureWorkspace
    simp [habs, hdisk]

/-- Witness for C8 (amended): on the disk-only store, the preference read
for `bob` lazily loads the stored record. -/
theorem storeReads_lazyLoad_witness :
    (getUserPreferences exStoreDiskOnly "w1" "bob").1 = zeroPrefs :=
  ((storeReads_lazyLoad exStoreDiskOnly "w1" "bob" "o" "r" 1 0 exDiskWorkspace
      (by decide)).1 (by decide)).trans (by decide)

/-! ## Theorems about persistence -/

/-- Decoding the encoding of a preference record consumes it exactly. -/
theorem decodePrefs_encode (p : UserPreferences) (rest : List Tok) :
    decodePrefs (encodePrefs p ++ rest) = some (p, rest) := rfl

/-- Decoding `l.length` strings from the encoded strings consumes them
exactly. -/
theorem decodeStrs_encode (l : List String) (rest : List Tok) :
    decodeStrs l.length (l.map Tok.s ++ rest) = some (l, rest) := by
  induction l with
  | nil => rfl
  | cons x xs ih => simp [decodeStrs, ih]

/-- Decoding the encoding of a PR record consumes it exactly. -/
theorem decodePR_encode (pr : PRState) (rest : List Tok) :
    decodePR (encodePR pr ++ rest) = some (pr, rest) := by
  simp [encodePR, decodePR, List.append_assoc, decodeStrs_encode]

/-- Decoding the encoding of a length-prefixed string list consumes it
exactly. -/
theorem decodeStrList_encode (l : List String) (rest : List Tok) :
    decodeStrList ((Tok.n l.length :: l.map Tok.s) ++ rest) = some (l, rest) := by
  simp [decodeStrList, decodeStrs_encode]

/-- Decoding `l.length` key/value pairs from their encoding consumes them
exactly, given the value codec round-trips. -/
theorem decodeKeyedAux_encode {α : Type} (enc : α → List Tok)
    (dec : List Tok → Option (α × List Tok))
    (hdec : ∀ v rest, dec (enc v ++ rest) = some (v, rest))
    (l : List (String × α)) (rest : List Tok) :
    decodeKeyedAux dec l.length
        ((l.flatMap fun kv => Tok.s kv.1 :: enc kv.2) ++ rest)
      = some (l, rest) := by
  induction l with
  | nil => rfl
  | cons kv tl ih =>
      obtain ⟨k, v⟩ := kv
      simp only [List.length_cons, List.flatMap_cons, List.cons_append,
        List.append_assoc]
      simp [decodeKeyedAux, hdec, ih]

/-- Decoding the encoding of a keyed list consumes it exactly, given the
value codec round-trips. -/
theorem decodeKeyed_encode {α : Type} (enc : α → List Tok)
    (dec : List Tok → Option (α × List Tok))
    (hdec : ∀ v rest, dec (enc v ++ rest) = some (v, rest))
    (l : List (String × α)) (rest : List Tok) :
    decodeKeyed dec (encodeKeyed enc l ++ rest) = some (l, rest) := by
  simp [encodeKeyed, decodeKeyed, decodeKeyedAux_encode enc dec hdec]

/-- The snapshot codec round-trips on whole workspace records. -/
theorem decode_encodeWorkspace (d : WorkspaceData) :
    decodeWorkspace (encodeWorkspace d) = some d := by
  have h1 := decodeKeyed_encode encodePrefs decodePrefs decodePrefs_encode
    d.users
    (encodeKeyed encodePR d.prs
      ++ (encodeKeyed (fun l => Tok.n l.length :: l.map Tok.s) d.userPRs
        ++ [Tok.i d.lastUpdated]))
  have h2 := decodeKeyed_encode encodePR decodePR decodePR_encode d.prs
    (encodeKeyed (fun l => Tok.n l.length :: l.map Tok.s) d.userPRs
      ++ [Tok.i d.lastUpdated])
  have h3 := decodeKeyed_encode (fun l => Tok.n l.length :: l.map Tok.s)
    decodeStrList decodeStrList_encode d.userPRs [Tok.i d.lastUpdated]
  simp [encodeWorkspace, decodeWorkspace, List.append_assoc, h1, h2, h3]

/-- C6: persist-then-load round-trip — a fault-free `saveWorkspaceData`
followed by `loadWorkspaceDataLocked` on the same snapshot name yields the
saved tenant record identically: the same preferences map, the same
TrackedItem map, and the same reverse index. -/
theorem save_load_roundtrip (d : WorkspaceData) (filename : String)
    (fs : FSys) :
    loadWorkspaceDataFS filename (saveWorkspaceDataFS noFaults d filename fs).1
      = some d := by
  simp [saveWorkspaceDataFS, noFaults, loadWorkspaceDataFS,
    lookupA_insertA_self, decode_encodeWorkspace]

/-- Erasing a file removes its binding. -/
theorem lookupA_eraseA_self {α : Type} (l : List (String × α)) (k : String) :
    lookupA (eraseA l k) k = none := by
  induction l with
  | nil => rfl
  | cons kv rest ih =>
      obtain ⟨k1, w⟩ := kv
      by_cases h : (k1 == k) = true
      · simp [eraseA, h, ih]
      · simp only [eraseA, h, if_false, Bool.false_eq_true]
        simp [lookupA, h, ih]

/-- Erasing one file leaves the content of every other file unchanged. -/
theorem lookupA_eraseA_ne {α : Type} (l : List (String × α))
    (k k' : String) (h : (k' == k) = false) :
    lookupA (eraseA l k) k' = lookupA l k' := by
  induction l with
  | nil => rfl
  | cons kv rest ih =>
      obtain ⟨k1, w⟩ := kv
      by_cases h1 : (k1 == k) = true
      · have h2 : (k1 == k') = false := by
          simp only [beq_iff_eq] at h1
          simp only [beq_eq_false_iff_ne, ne_eq] at h ⊢
          subst h1
          exact fun hk => h hk.symm
        simp [eraseA, lookupA, h1, h2, ih]
      · simp only [eraseA, h1, if_false, Bool.false_eq_true]
        simp [lookupA, ih]

/-- A file name never equals its temp sibling. -/
theorem self_neq_tmp (filename : String) :
    (filename == filename ++ ".tmp") = false := by
  simp only [beq_eq_false_iff_ne, ne_eq]
  intro h
  have h2 := congrArg String.length h
  rw [String.length_append] at h2
  have h3 : ".tmp".length = 4 := rfl
  omega

/-- The temp sibling never equals its file name. -/
theorem tmp_neq_self (filename : String) :
    (filename ++ ".tmp" == filename) = false := by
  have h := self_neq_tmp filename
  simp only [beq_eq_false_iff_ne, ne_eq] at h ⊢
  exact fun hk => h hk.symm

/-- C7: crash safety of `saveWorkspaceData` — the run succeeds exactly
when no stage fails; on success the final snapshot holds the fully
written record and the temp sibling is gone (the replacement happened only
through the atomic rename); on any failure the previous final snapshot is
untouched and, whenever the temp file was created at all, it has been
removed. -/
theorem saveWorkspaceData_crash_safe (f : SaveFaults) (d : WorkspaceData)
    (filename : String) (fs : FSys) :
    ((saveWorkspaceDataFS f d filename fs).2 = true ↔ f = noFaults)
    ∧ ((saveWorkspaceDataFS f d filename fs).2 = true →
        lookupA (saveWorkspaceDataFS f d filename fs).1 filename
            = some (encodeWorkspace d)
        ∧ lookupA (saveWorkspaceDataFS f d filename fs).1 (filename ++ ".tmp")
            = none)
    ∧ ((saveWorkspaceDataFS f d filename fs).2 = false →
        lookupA (saveWorkspaceDataFS f d filename fs).1 filename
            = lookupA fs filename
        ∧ (f.createFails = false →
            lookupA (saveWorkspaceDataFS f d filename fs).1 (filename ++ ".tmp")
              = none)) := by
  obtain ⟨c, e, g, fc, r⟩ := f
  have htmp := self_neq_tmp filename
  have htmp2 := tmp_neq_self filename
  cases c <;> cases e <;> cases g <;> cases fc <;> cases r <;>
    simp [saveWorkspaceDataFS, noFaults, lookupA_insertA_self,
      lookupA_insertA_ne, lookupA_eraseA_self, lookupA_eraseA_ne,
      htmp, htmp2]

/-- Witness for C7: a fault-free save of the example workspace into an
empty directory leaves the full record at the final name and no temp
sibling. -/
theorem saveWorkspaceData_crash_safe_witness :
    lookupA (saveWorkspaceDataFS noFaults exDiskWorkspace "w1.json.gz" []).1
        "w1.json.gz"
      = some (encodeWorkspace exDiskWorkspace)
    ∧ lookupA (saveWorkspaceDataFS noFaults exDiskWorkspace "w1.json.gz" []).1
        ("w1.json.gz" ++ ".tmp")
      = none :=
  (saveWorkspaceData_crash_safe noFaults exDiskWorkspace "w1.json.gz" []).2.1
    (by decide)

/-! ## Theorems about event envelope validation -/

/-- The handlers a processing outcome dispatched: none on an error. -/
def dispatchedHandlers (r : Except String (List HandlerCall)) :
    List HandlerCall :=
  match r with
  | .ok l => l
  | .error _ => []

/-- C9: an envelope whose repository identifier does not split on `/` into
exactly two segments, or whose owner or repository segment is empty, is
rejected: `processEvent` returns an error and dispatches no handler, and —
being a pure per-event computation — touches nothing else. -/
theorem processEvent_rejects_malformed (msg : SprinklerMessage)
    (h : (splitSlash msg.repo).length ≠ 2
        ∨ (splitSlash msg.repo).headD "" = ""
        ∨ ((splitSlash msg.repo).drop 1).headD "" = "") :
    (processEvent msg).isOk = false
    ∧ dispatchedHandlers (processEvent msg) = [] := by
  by_cases h2 : ((splitSlash msg.repo).length != 2) = true
  · simp [processEvent, h2, dispatchedHandlers, Except.isOk, Except.toBool]
  · have hlen : (splitSlash msg.repo).length = 2 := by
      simpa using h2
    rcases h with h | h | h
    · exact absurd hlen h
    · simp_all [processEvent, dispatchedHandlers, Except.isOk, Except.toBool]
    · simp_all [processEvent, dispatchedHandlers, Except.isOk, Except.toBool]

/-- Witness for C9: a repository identifier with no slash is rejected. -/
theorem processEvent_rejects_malformed_witness :
    (processEvent ⟨"pull_request", "noslash", "p"⟩).isOk = false :=
  (processEvent_rejects_malformed ⟨"pull_request", "noslash", "p"⟩
    (Or.inl (by decide))).1

end Slacker
